import Mathlib

/-
Shallow embedding of the tvg-monitor scheduler (slite_server.py and
slite_client.py). wandb run records are modelled as plain structures and
Python dicts as ordered association lists, whose entry order models dict
insertion and iteration order. Times are integers standing for time.time()
values. Registry calls that can raise (job.update, resources.update) are
modelled by an injected failure oracle; the source catches no exception, so
an injected failure aborts a step, and the surrounding loop, exactly where
the Python call would raise.
-/

namespace Slite

abbrev GpuId := Nat

abbrev NodeId := String

abbrev UserId := String

/-- Resource Snapshot as read by slite_server from the resource run summary:
free_gpu_ids maps a node to the list of its free GPU ids, gpu_per_user maps a
user to a current GPU usage count. -/
structure Resources where
  free_gpu_ids : List (NodeId × List GpuId)
  gpu_per_user : List (UserId × Nat)
deriving Repr, DecidableEq

/-- Fields of a job record (the wandb run config). A field of Option type
models a config key that may be absent from the record: none is an absent
key, and reading it raises KeyError in Python. The client submission writes
user, gres, time_limit, allocated_node, allocated_gpus and script_path; the
scheduler writes allocated_node, allocated_gpu_ids and start_time. -/
structure JobConfig where
  user : UserId
  gres : Nat
  gpus : Option Nat
  time_limit : Int
  start_time : Option Int
  allocated_node : Option NodeId
  allocated_gpu_ids : Option (List GpuId)
  allocated_gpus : Option (List GpuId)
  script_path : String
deriving Repr, DecidableEq

/-- Job record: the run id, the config dict and the run state string. The
source compares and assigns the state as string literals, so it is kept as a
String here. -/
structure Job where
  jid : Nat
  config : JobConfig
  state : String
deriving Repr, DecidableEq

/-- Lookup of a key in an ordered association list, modelling a Python dict
read; none models a KeyError. -/
def dget {α β : Type} [DecidableEq α] (m : List (α × β)) (k : α) : Option β :=
  (m.find? (fun p => decide (p.1 = k))).map (fun p => p.2)

/-- Assignment m[k] = v on an ordered association list, modelling a Python
dict write to an existing key: the entry for k is replaced in place and
every other entry is unchanged. -/
def dset {α β : Type} [DecidableEq α] (m : List (α × β)) (k : α) (v : β) :
    List (α × β) :=
  m.map (fun p => if p.1 = k then (k, v) else p)

/-- Errors a scheduler step can raise: a missing record key (Python
KeyError) or a failed registry write (a wandb update call raising). -/
inductive SrvErr where
  | keyError (k : String)
  | registry
deriving Repr, DecidableEq

/-- Embedding of slite_server.process_pending_job. The parameter now stands
for time.time(); wfail j injects a failure of job.update() for the run id j
and rfail injects a failure of resources.update(). The function scans the
nodes of the snapshot in order and picks the first node whose free list is
at least config gres long, but slices the allocation with the distinct
config key gpus, exactly as the source does. The result is the registry
state after the step (job record and snapshot) plus the raised error, if
any; on an error the registry keeps the writes made before the raise. -/
def process_pending_job (now : Int) (wfail : Nat → Bool) (rfail : Bool)
    (job : Job) (res : Resources) : (Job × Resources) × Option SrvErr :=
  match res.free_gpu_ids.find? (fun p => decide (job.config.gres ≤ p.2.length)) with
  | none => ((job, res), none)
  | some p =>
    match job.config.gpus with
    | none => ((job, res), some (SrvErr.keyError "gpus"))
    | some g =>
      let allocated_gpu_ids := p.2.take g
      let free2 := dset res.free_gpu_ids p.1 (p.2.drop g)
      if rfail then ((job, res), some SrvErr.registry)
      else
        let res2 : Resources := { res with free_gpu_ids := free2 }
        if wfail job.jid then ((job, res2), some SrvErr.registry)
        else
          (({ job with
              config := { job.config with
                allocated_node := some p.1
                allocated_gpu_ids := some allocated_gpu_ids
                start_time := some now }
              state := "configuring" }, res2), none)

/-- Stable insertion of x into a list: x lands before the first element b
with le x b, hence after every element strictly preceding it and before
every element tied with it. -/
def sinsert {α : Type} (le : α → α → Bool) (x : α) : List α → List α
  | [] => [x]
  | b :: t => if le x b then x :: b :: t else b :: sinsert le x t

/-- Stable sort by insertion. Python list.sort is stable, and a stable sort
is determined as a function by its comparison, so this is a faithful model
of it. -/
def ssort {α : Type} (le : α → α → Bool) : List α → List α
  | [] => []
  | a :: t => sinsert le a (ssort le t)

/-- Sort key gpu_per_user[x.config["user"]] of process_pending_jobs. The
getD default is never reached when the user is a key of the dict, which
process_pending_jobs checks before sorting. -/
def userUsage (m : List (UserId × Nat)) (j : Job) : Nat :=
  (dget m j.config.user).getD 0

/-- Embedding of the two stable in-place sorts of
slite_server.process_pending_jobs: first by user usage descending, then by
config gres descending (list.sort with a key and reverse=True is a stable
descending sort). -/
def rank_pending (m : List (UserId × Nat)) (jobs : List Job) : List Job :=
  ssort (fun a b => decide (b.config.gres ≤ a.config.gres))
    (ssort (fun a b => decide (userUsage m b ≤ userUsage m a)) jobs)

/-- Sequential for-loop of process_pending_jobs over the ranked jobs. The
source has no try or except, so an error raised while processing one job
aborts the loop and the remaining job records stay as they were. -/
def pending_loop (now : Int) (wfail : Nat → Bool) (rfail : Bool) :
    List Job → Resources → List Job × Resources × Option SrvErr
  | [], res => ([], res, none)
  | j :: rest, res =>
    match process_pending_job now wfail rfail j res with
    | ((j2, res2), some e) => (j2 :: rest, res2, some e)
    | ((j2, res2), none) =>
      let r := pending_loop now wfail rfail rest res2
      (j2 :: r.1, r.2.1, r.2.2)

/-- Embedding of slite_server.process_pending_jobs: rank the pending jobs,
then process them in order. The sort key reads
gpu_per_user[x.config["user"]], which raises KeyError when some user is
missing from the dict; in that case the sort raises and nothing is
processed. -/
def process_pending_jobs (now : Int) (wfail : Nat → Bool) (rfail : Bool)
    (jobs : List Job) (res : Resources) : List Job × Resources × Option SrvErr :=
  if jobs.all (fun j => (dget res.gpu_per_user j.config.user).isSome) then
    pending_loop now wfail rfail (rank_pending res.gpu_per_user jobs) res
  else (jobs, res, some (SrvErr.keyError "user"))

/-- Embedding of slite_server.process_running_job. The allocation fields are
read first (a record without the allocated_gpu_ids key raises KeyError at
that read); a running job is checked against its time limit, with
config time_limit compared directly to the elapsed seconds now minus
start_time; a record observed in state finished has its allocated ids
appended back to the free list of its node and is written back again. -/
def process_running_job (now : Int) (wfail : Nat → Bool) (rfail : Bool)
    (job : Job) (res : Resources) : (Job × Resources) × Option SrvErr :=
  match job.config.allocated_gpu_ids with
  | none => ((job, res), some (SrvErr.keyError "allocated_gpu_ids"))
  | some allocated_gpu_ids =>
    if job.state = "running" then
      match job.config.start_time with
      | none => ((job, res), some (SrvErr.keyError "start_time"))
      | some st =>
        if job.config.time_limit < now - st then
          if wfail job.jid then ((job, res), some SrvErr.registry)
          else (({ job with state := "terminated" }, res), none)
        else ((job, res), none)
    else if job.state = "finished" then
      match job.config.allocated_node with
      | none => ((job, res), some (SrvErr.keyError "allocated_node"))
      | some n =>
        match dget res.free_gpu_ids n with
        | none => ((job, res), some (SrvErr.keyError n))
        | some cur =>
          if rfail then ((job, res), some SrvErr.registry)
          else
            let res2 : Resources :=
              { res with free_gpu_ids := dset res.free_gpu_ids n (cur ++ allocated_gpu_ids) }
            if wfail job.jid then ((job, res2), some SrvErr.registry)
            else (({ job with state := "finished" }, res2), none)
    else ((job, res), none)

/-- Embedding of slite_server.process_running_jobs: the sequential for-loop
over the running jobs, aborting at the first uncaught error. -/
def running_loop (now : Int) (wfail : Nat → Bool) (rfail : Bool) :
    List Job → Resources → List Job × Resources × Option SrvErr
  | [], res => ([], res, none)
  | j :: rest, res =>
    match process_running_job now wfail rfail j res with
    | ((j2, res2), some e) => (j2 :: rest, res2, some e)
    | ((j2, res2), none) =>
      let r := running_loop now wfail rfail rest res2
      (j2 :: r.1, r.2.1, r.2.2)

/-- Embedding of one scheduler tick, the slite_server main block: select the
runs whose state is pending and the runs whose state is running, process the
pending ones, then the running ones. Runs in any other state are not
selected by the main block; they are carried through untouched so the tick
is a function on the full job list. An uncaught error aborts the tick at
that point. -/
def server_tick (now : Int) (wfail : Nat → Bool) (rfail : Bool)
    (jobs : List Job) (res : Resources) : List Job × Resources × Option SrvErr :=
  let pending_jobs := jobs.filter (fun j => j.state = "pending")
  let running_jobs := jobs.filter (fun j => j.state = "running")
  let other_jobs :=
    jobs.filter (fun j => !(decide (j.state = "pending")) && !(decide (j.state = "running")))
  match process_pending_jobs now wfail rfail pending_jobs res with
  | (p2, res2, some e) => (p2 ++ running_jobs ++ other_jobs, res2, some e)
  | (p2, res2, none) =>
    let r := running_loop now wfail rfail running_jobs res2
    (p2 ++ r.1 ++ other_jobs, r.2.1, r.2.2)

/-- Embedding of the very top of the slite_server main block: the initial
registry reads themselves can fail, and the source catches nothing, so a
total registry outage ends the tick before any write; the registry is then
unchanged and the tick is retried when the server is next run. -/
def server_main (readFail : Bool) (now : Int) (wfail : Nat → Bool)
    (rfail : Bool) (jobs : List Job) (res : Resources) :
    List Job × Resources × Option SrvErr :=
  if readFail then (jobs, res, some SrvErr.registry)
  else server_tick now wfail rfail jobs res

/-- Job record created by the slite_client submission (the wandb.init config
block): state pending, no allocation yet, gres and time_limit taken from the
CLI arguments. The time-limit argument is documented by the client as a
number of hours and is stored as that raw number. The record has no gpus
key and its allocated_gpus key is initialised to None. -/
def client_submit (script_path : String) (user : UserId) (gres : Nat)
    (time_limit_hours : Int) (jid : Nat) : Job :=
  { jid := jid
    state := "pending"
    config := {
      user := user
      gres := gres
      gpus := none
      time_limit := time_limit_hours
      start_time := none
      allocated_node := none
      allocated_gpu_ids := none
      allocated_gpus := none
      script_path := script_path } }

/-- Python str() of an optional value as it appears inside an f-string: None
prints as the string None, a list of ints as a bracketed comma-separated
rendering. -/
def pyStr : Option (List GpuId) → String
  | none => "None"
  | some l => "[" ++ String.intercalate ", " (l.map toString) ++ "]"

/-- Embedding of the ssh command the client builds at launch: it reads the
allocated_gpus config key for the CUDA_VISIBLE_DEVICES restriction and the
allocated_node key for the target host. -/
def client_launch_cmd (cfg : JobConfig) : List String :=
  [ "ssh", cfg.allocated_node.getD "None",
    "CUDA_VISIBLE_DEVICES=" ++ pyStr cfg.allocated_gpus,
    "bash", cfg.script_path ]

/-- Process-control actions the client supervise loop can perform. -/
inductive ClientAct where
  | terminate
  | sleep (seconds : Nat)
  | kill
  | writeState (s : String)
deriving Repr, DecidableEq

/-- Embedding of the client supervise while-loop as a function of the
observed record state and of process liveness over time: stateAt t is the
record state the poll at time t observes and aliveAt t tells whether the
launched process is still alive at time t. On observing state terminated
the loop sends a graceful terminate, sleeps the 30 second grace period,
force-kills when the process is still alive after it, and breaks; otherwise
it polls the process and breaks when it has exited. fuel bounds the number
of iterations. Returns the emitted actions and whether the loop reached its
break. -/
def supervise_loop (stateAt : Nat → String) (aliveAt : Nat → Bool) :
    Nat → Nat → List ClientAct × Bool
  | 0, _ => ([], false)
  | fuel + 1, t =>
    if stateAt t = "terminated" then
      (ClientAct.terminate :: ClientAct.sleep 30 ::
        (if aliveAt (t + 30) then [ClientAct.kill] else []), true)
    else if !(aliveAt (t + 1)) then ([], true)
    else
      let r := supervise_loop stateAt aliveAt fuel (t + 1)
      (ClientAct.sleep 1 :: r.1, r.2)

/-- Embedding of the client supervise phase: run the loop and, once it
breaks, write the job record back as finished. -/
def client_supervise (stateAt : Nat → String) (aliveAt : Nat → Bool)
    (fuel t : Nat) : List ClientAct × Option String :=
  let r := supervise_loop stateAt aliveAt fuel t
  if r.2 then (r.1 ++ [ClientAct.writeState "finished"], some "finished")
  else (r.1, none)

/-- Concatenation of the free lists of every node of a snapshot. -/
def joinSnd (m : List (NodeId × List GpuId)) : List GpuId :=
  (m.map (fun p => p.2)).flatten

/-- Concatenation of the free lists of every node of a snapshot. -/
def freeJoin (res : Resources) : List GpuId :=
  joinSnd res.free_gpu_ids

/-- States in which a job holds its allocated GPUs (the active states of the
spec data model). -/
def activeState (s : String) : Bool :=
  s = "configuring" || s = "running" || s = "terminated"

/-- GPU ids a job record currently accounts for: its allocated ids when the
job is in an active state, nothing otherwise. -/
def allocOf (j : Job) : List GpuId :=
  if activeState j.state then j.config.allocated_gpu_ids.getD [] else []

/-- GPU-id exclusivity: the concatenation of every free list of the
snapshot and of the allocated ids of every active job has no duplicate,
that is, every GPU id is a member of at most one of those sets, and of that
one only once. -/
def Exclusive (jobs : List Job) (res : Resources) : Prop :=
  (freeJoin res ++ (jobs.map allocOf).flatten).Nodup

/-- Well-formedness of the snapshot dict: node keys are distinct, as the
keys of a Python dict always are. -/
def NodesNodup (res : Resources) : Prop :=
  (res.free_gpu_ids.map (fun p => p.1)).Nodup

instance (jobs : List Job) (res : Resources) : Decidable (Exclusive jobs res) :=
  inferInstanceAs (Decidable (List.Nodup _))

instance (res : Resources) : Decidable (NodesNodup res) :=
  inferInstanceAs (Decidable (List.Nodup _))

/-- Ranking example of the spec: three pending jobs with gres 4, 4 and 2,
submitted by users A, B and C. -/
def jobA : Job := client_submit "a.sh" "A" 4 24 1

/-- Second job of the ranking example (gres 4, user B). -/
def jobB : Job := client_submit "b.sh" "B" 4 24 2

/-- Third job of the ranking example (gres 2, user C). -/
def jobC : Job := client_submit "c.sh" "C" 2 24 3

/-- Per-user usage of the ranking example: A uses 2 GPUs, B uses 5, C none. -/
def usageABC : List (UserId × Nat) := [("A", 2), ("B", 5), ("C", 0)]

/-- Snapshot of the allocation scenario: node N1 with free GPUs g0 and g1,
rendered as ids 0 and 1. -/
def resN1 : Resources :=
  { free_gpu_ids := [("N1", [0, 1])], gpu_per_user := [("alice", 0)] }

/-- Job record exactly as the client submission creates it, requesting 2
GPUs: the record carries the key gres but no key gpus. -/
def jobPend : Job := client_submit "train.sh" "alice" 2 24 1

/-- The same record with a gpus key holding the requested count as well, the
only shape on which the allocation step completes. -/
def jobPendG : Job :=
  { jobPend with config := { jobPend.config with gpus := some 2 } }

/-- Running job submitted with a time limit of 1 (the client CLI documents
the number as hours), started at time 0 and holding GPU 0 of node N1. -/
def jobRun : Job :=
  { client_submit "train.sh" "alice" 1 1 7 with
    state := "running"
    config := { (client_submit "train.sh" "alice" 1 1 7).config with
      start_time := some 0
      allocated_node := some "N1"
      allocated_gpu_ids := some [0] } }

/-- Finished job still holding GPUs 5 and 6 of node N1, awaiting
reclamation. -/
def jobFin : Job :=
  { client_submit "t.sh" "alice" 2 24 9 with
    state := "finished"
    config := { (client_submit "t.sh" "alice" 2 24 9).config with
      start_time := some 0
      allocated_node := some "N1"
      allocated_gpu_ids := some [5, 6] } }

/-- First of two pending one-GPU jobs used to exercise a per-job registry
failure (run id 1, user a). -/
def jobP1 : Job :=
  { client_submit "a.sh" "a" 1 24 1 with
    config := { (client_submit "a.sh" "a" 1 24 1).config with gpus := some 1 } }

/-- Second pending one-GPU job (run id 2, user b). -/
def jobP2 : Job :=
  { client_submit "b.sh" "b" 1 24 2 with
    config := { (client_submit "b.sh" "b" 1 24 2).config with gpus := some 1 } }

/-- Snapshot with one node holding four free GPUs and both users known. -/
def resP : Resources :=
  { free_gpu_ids := [("N1", [0, 1, 2, 3])], gpu_per_user := [("a", 0), ("b", 0)] }

/-- Running job holding GPU 9, used in the exclusivity witness. -/
def jobW2 : Job :=
  { client_submit "r.sh" "b" 1 10 5 with
    state := "running"
    config := { (client_submit "r.sh" "b" 1 10 5).config with
      start_time := some 0
      allocated_node := some "N1"
      allocated_gpu_ids := some [9] } }

/-- Snapshot for the exclusivity witness: free GPUs 0 and 1 on N1, disjoint
from the allocated GPU 9 of jobW2. -/
def resW : Resources :=
  { free_gpu_ids := [("N1", [0, 1])], gpu_per_user := [("a", 0), ("b", 1)] }

/-- The submitted record with a gpus key present but holding 1 while gres
holds 2, showing the mismatched slice width. -/
def jobPendOne : Job :=
  { jobPend with config := { jobPend.config with gpus := some 1 } }

/-- Pending job requesting 3 GPUs, more than any node of resN1 has free. -/
def jobBig : Job := client_submit "big.sh" "alice" 3 24 4

lemma dset_map_fst {α β : Type} [DecidableEq α] (m : List (α × β)) (k : α) (v : β) :
    (dset m k v).map (fun p => p.1) = m.map (fun p => p.1) := by
  induction m with
  | nil => rfl
  | cons a t ih =>
    simp only [dset, List.map_cons] at ih ⊢
    by_cases h : a.1 = k
    · simp [h, ih]
    · simp [h, ih]

lemma dset_eq_of_not_mem {α β : Type} [DecidableEq α] {m : List (α × β)} {k : α}
    (v : β) (h : k ∉ m.map (fun p => p.1)) : dset m k v = m := by
  induction m with
  | nil => rfl
  | cons a t ih =>
    simp only [List.map_cons, List.mem_cons] at h
    push_neg at h
    simp only [dset, List.map_cons]
    rw [if_neg (fun hh => h.1 hh.symm)]
    have := ih h.2
    simp only [dset] at this
    rw [this]

lemma mem_dset_of_ne {α β : Type} [DecidableEq α] {m : List (α × β)} {k : α}
    {v : β} {p : α × β} (hp : p ∈ dset m k v) (hne : p.1 ≠ k) : p ∈ m := by
  simp only [dset, List.mem_map] at hp
  obtain ⟨q, hq, hqe⟩ := hp
  by_cases h : q.1 = k
  · rw [if_pos h] at hqe
    exact absurd (by rw [← hqe]) hne
  · rw [if_neg h] at hqe
    exact hqe ▸ hq

lemma joinSnd_cons (a : NodeId × List GpuId) (t : List (NodeId × List GpuId)) :
    joinSnd (a :: t) = a.2 ++ joinSnd t := by
  simp [joinSnd]

/-- Replacing, inside a snapshot dict with distinct node keys, the free list
l of the first node accepted by the scan with a list v, exchanges l for v in
the concatenation of all free lists, up to permutation. -/
lemma joinSnd_dset_perm (pred : NodeId × List GpuId → Bool) :
    ∀ (m : List (NodeId × List GpuId)) (n : NodeId) (l v : List GpuId),
    (m.map (fun p => p.1)).Nodup → m.find? pred = some (n, l) →
    List.Perm (l ++ joinSnd (dset m n v)) (v ++ joinSnd m) := by
  intro m
  induction m with
  | nil => intro n l v _ hf; simp at hf
  | cons a t ih =>
    intro n l v hnd hf
    simp only [List.map_cons, List.nodup_cons] at hnd
    by_cases hp : pred a
    · rw [List.find?_cons_of_pos _ hp] at hf
      have ha : a = (n, l) := by
        cases hf
        rfl
      subst ha
      have ht : dset t n v = t := dset_eq_of_not_mem v hnd.1
      simp only [dset, List.map_cons, if_pos rfl] at *
      rw [ht]
      rw [joinSnd_cons, joinSnd_cons]
      exact List.perm_append_comm_assoc l v (joinSnd t)
    · rw [List.find?_cons_of_neg _ hp] at hf
      have hmem : n ∈ t.map (fun p => p.1) := by
        have := List.mem_of_find?_eq_some hf
        exact List.mem_map.mpr ⟨(n, l), this, rfl⟩
      have hane : ¬(a.1 = n) := fun h => hnd.1 (h ▸ hmem)
      have hih := ih n l v hnd.2 hf
      simp only [dset, List.map_cons, if_neg hane]
      rw [joinSnd_cons, joinSnd_cons]
      have h1 := List.perm_append_comm_assoc l a.2 (joinSnd (dset t n v))
      have h2 := List.Perm.append_left a.2 hih
      have h3 := List.perm_append_comm_assoc a.2 v (joinSnd t)
      exact List.Perm.trans h1 (List.Perm.trans h2 h3)

lemma subperm_append_compat {α : Type} {l1 l2 r1 r2 : List α}
    (h1 : List.Subperm l1 l2) (h2 : List.Subperm r1 r2) :
    List.Subperm (l1 ++ r1) (l2 ++ r2) := by
  obtain ⟨u, hu, hs⟩ := h1
  obtain ⟨w, hw, hws⟩ := h2
  exact ⟨u ++ w, List.Perm.append hu hw, List.Sublist.append hs hws⟩

lemma nodup_of_subperm {α : Type} {l1 l2 : List α}
    (h : List.Subperm l1 l2) (h2 : l2.Nodup) : l1.Nodup := by
  obtain ⟨u, hu, hs⟩ := h
  exact (List.Perm.nodup_iff hu).mp (List.Nodup.sublist hs h2)

lemma sinsert_perm {α : Type} (le : α → α → Bool) (x : α) :
    ∀ l : List α, List.Perm (sinsert le x l) (x :: l) := by
  intro l
  induction l with
  | nil => simp [sinsert]
  | cons b t ih =>
    simp only [sinsert]
    by_cases h : le x b
    · rw [if_pos h]
    · rw [if_neg h]
      exact List.Perm.trans (List.Perm.cons b ih) (List.Perm.swap x b t)

lemma ssort_perm {α : Type} (le : α → α → Bool) :
    ∀ l : List α, List.Perm (ssort le l) l := by
  intro l
  induction l with
  | nil => exact List.Perm.refl _
  | cons a t ih =>
    exact List.Perm.trans (sinsert_perm le a (ssort le t)) (List.Perm.cons a ih)

lemma rank_pending_perm (m : List (UserId × Nat)) (jobs : List Job) :
    List.Perm (rank_pending m jobs) jobs :=
  List.Perm.trans (ssort_perm _ _) (ssort_perm _ _)

lemma process_pending_job_map_fst (now : Int) (wfail : Nat → Bool) (rfail : Bool)
    (job : Job) (res : Resources) :
    ((process_pending_job now wfail rfail job res).1.2).free_gpu_ids.map (fun p => p.1) =
      res.free_gpu_ids.map (fun p => p.1) := by
  unfold process_pending_job
  split
  · rfl
  · split
    · rfl
    · split
      · rfl
      · split
        · exact dset_map_fst _ _ _
        · exact dset_map_fst _ _ _

/-- One allocation step never duplicates a GPU id: the ids of the snapshot
free lists together with the ids held by the processed job afterwards form
a sub-multiset of the same collection before (ids are dropped exactly when
job.update fails after the snapshot write). -/
lemma process_pending_job_subperm (now : Int) (wfail : Nat → Bool) (rfail : Bool)
    (job : Job) (res : Resources) (hn : NodesNodup res) (hp : job.state = "pending") :
    List.Subperm
      (freeJoin (process_pending_job now wfail rfail job res).1.2 ++
        allocOf (process_pending_job now wfail rfail job res).1.1)
      (freeJoin res ++ allocOf job) := by
  have hpa : allocOf job = [] := by simp [allocOf, activeState, hp]
  unfold process_pending_job
  split
  · exact List.Subperm.refl _
  · rename_i p hf
    split
    · exact List.Subperm.refl _
    · rename_i g hg
      have hperm := joinSnd_dset_perm
        (fun p => decide (job.config.gres ≤ p.2.length)) res.free_gpu_ids
        p.1 p.2 (p.2.drop g) hn hf
      split
      · simpa [hpa] using List.Subperm.refl (freeJoin res)
      · split
        · -- job.update fails: take g leaves the free list and is held by no job
          have hsub := List.Sublist.append_right (List.drop_sublist g p.2)
            (joinSnd (dset res.free_gpu_ids p.1 (p.2.drop g)))
          have h6 := List.Subperm.trans (List.Sublist.subperm hsub)
            (List.Perm.subperm hperm)
          have h7 := (List.subperm_append_left (p.2.drop g)).mp h6
          simpa [hpa, freeJoin, allocOf, activeState, hp] using h7
        · -- successful allocation: take g moves from the free list to the job
          have h1 := List.Perm.append_left (p.2.take g) hperm
          have h2 : p.2.take g ++ (p.2.drop g ++ joinSnd res.free_gpu_ids) =
              p.2 ++ joinSnd res.free_gpu_ids := by
            rw [← List.append_assoc, List.take_append_drop]
          have h3 := List.perm_append_comm_assoc p.2 (p.2.take g)
            (joinSnd (dset res.free_gpu_ids p.1 (p.2.drop g)))
          have h4 : List.Perm
              (p.2 ++ (p.2.take g ++ joinSnd (dset res.free_gpu_ids p.1 (p.2.drop g))))
              (p.2 ++ joinSnd res.free_gpu_ids) := by
            rw [← h2]
            exact List.Perm.trans h3 h1
          have h5 := (List.perm_append_left_iff p.2).mp h4
          have h6 := List.Perm.trans
            (@List.perm_append_comm GpuId
              (joinSnd (dset res.free_gpu_ids p.1 (p.2.drop g)))
              (p.2.take g)) h5
          simpa [hpa, hp, freeJoin, allocOf, activeState] using List.Perm.subperm h6

lemma pending_loop_map_fst (now : Int) (wfail : Nat → Bool) (rfail : Bool) :
    ∀ (jobs : List Job) (res : Resources),
    ((pending_loop now wfail rfail jobs res).2.1).free_gpu_ids.map (fun p => p.1) =
      res.free_gpu_ids.map (fun p => p.1) := by
  intro jobs
  induction jobs with
  | nil => intro res; rfl
  | cons j rest ih =>
    intro res
    unfold pending_loop
    rcases hs : process_pending_job now wfail rfail j res with ⟨⟨j2, res2⟩, e⟩
    have hfst : res2.free_gpu_ids.map (fun p => p.1) =
        res.free_gpu_ids.map (fun p => p.1) := by
      have h := process_pending_job_map_fst now wfail rfail j res
      rw [hs] at h
      exact h
    cases e with
    | some err => simpa [hs] using hfst
    | none =>
      simp only [hs]
      exact (ih res2).trans hfst

/-- The per-job loop of process_pending_jobs never duplicates a GPU id:
afterwards, the ids of all free lists together with the ids held by the
processed jobs form a sub-multiset of the same collection before. -/
lemma pending_loop_subperm (now : Int) (wfail : Nat → Bool) (rfail : Bool) :
    ∀ (jobs : List Job) (res : Resources), NodesNodup res →
    (∀ j ∈ jobs, j.state = "pending") →
    List.Subperm
      (freeJoin (pending_loop now wfail rfail jobs res).2.1 ++
        (((pending_loop now wfail rfail jobs res).1).map allocOf).flatten)
      (freeJoin res ++ (jobs.map allocOf).flatten) := by
  intro jobs
  induction jobs with
  | nil => intro res _ _; exact List.Subperm.refl _
  | cons j rest ih =>
    intro res hn hall
    unfold pending_loop
    rcases hs : process_pending_job now wfail rfail j res with ⟨⟨j2, res2⟩, e⟩
    have hstep := process_pending_job_subperm now wfail rfail j res hn (hall j (by simp))
    rw [hs] at hstep
    have hfst : res2.free_gpu_ids.map (fun p => p.1) =
        res.free_gpu_ids.map (fun p => p.1) := by
      have h := process_pending_job_map_fst now wfail rfail j res
      rw [hs] at h
      exact h
    cases e with
    | some err =>
      simp only [hs, List.map_cons, List.flatten_cons]
      rw [← List.append_assoc, ← List.append_assoc]
      exact subperm_append_compat hstep (List.Subperm.refl _)
    | none =>
      have hn2 : NodesNodup res2 := by
        unfold NodesNodup
        rw [hfst]
        exact hn
      have hrec := ih res2 hn2 (fun x hx => hall x (by simp [hx]))
      simp only [hs, List.map_cons, List.flatten_cons]
      have ha := List.perm_append_comm_assoc
        (freeJoin (pending_loop now wfail rfail rest res2).2.1) (allocOf j2)
        (((pending_loop now wfail rfail rest res2).1).map allocOf).flatten
      have hb := (List.subperm_append_left (allocOf j2)).mpr hrec
      have hc := List.perm_append_comm_assoc (allocOf j2) (freeJoin res2)
        ((rest.map allocOf).flatten)
      have hd : List.Subperm
          (freeJoin res2 ++ (allocOf j2 ++ (rest.map allocOf).flatten))
          (freeJoin res ++ (allocOf j ++ (rest.map allocOf).flatten)) := by
        rw [← List.append_assoc, ← List.append_assoc]
        exact subperm_append_compat hstep (List.Subperm.refl _)
      exact List.Subperm.trans (List.Perm.subperm ha)
        (List.Subperm.trans hb
          (List.Subperm.trans (List.Perm.subperm hc) hd))

/-- Processing a job observed in state running never touches the snapshot
and never changes the set of GPU ids the job accounts for: the step either
leaves the record alone or moves it from running to terminated, keeping the
same allocated ids. -/
lemma process_running_job_frozen (now : Int) (wfail : Nat → Bool) (rfail : Bool)
    (job : Job) (res : Resources) (hr : job.state = "running") :
    (process_running_job now wfail rfail job res).1.2 = res ∧
    allocOf (process_running_job now wfail rfail job res).1.1 = allocOf job := by
  unfold process_running_job
  split
  · exact ⟨rfl, rfl⟩
  · rename_i ids hids
    rw [if_pos hr]
    split
    · exact ⟨rfl, rfl⟩
    · split
      · split
        · exact ⟨rfl, rfl⟩
        · exact ⟨rfl, by simp [allocOf, activeState, hr]⟩
      · exact ⟨rfl, rfl⟩

lemma running_loop_frozen (now : Int) (wfail : Nat → Bool) (rfail : Bool) :
    ∀ (jobs : List Job) (res : Resources), (∀ j ∈ jobs, j.state = "running") →
    (running_loop now wfail rfail jobs res).2.1 = res ∧
    ((running_loop now wfail rfail jobs res).1).map allocOf = jobs.map allocOf := by
  intro jobs
  induction jobs with
  | nil => intro res _; exact ⟨rfl, rfl⟩
  | cons j rest ih =>
    intro res hall
    unfold running_loop
    rcases hs : process_running_job now wfail rfail j res with ⟨⟨j2, res2⟩, e⟩
    have hfro := process_running_job_frozen now wfail rfail j res (hall j (by simp))
    rw [hs] at hfro
    cases e with
    | some err =>
      simp only [hs]
      exact ⟨hfro.1, by simp [hfro.2]⟩
    | none =>
      have hrec := ih res2 (fun x hx => hall x (by simp [hx]))
      simp only [hs]
      constructor
      · exact hrec.1.trans hfro.1
      · simp [hfro.2, hrec.2]

/-- Splitting a list by two mutually exclusive predicates and the rest is a
permutation of the list. -/
lemma filter_three_perm {α : Type} (p q : α → Bool)
    (hpq : ∀ a, p a = true → q a = false) :
    ∀ l : List α,
    List.Perm (l.filter p ++ l.filter q ++ l.filter (fun a => !(p a) && !(q a))) l := by
  intro l
  induction l with
  | nil => simp
  | cons a t ih =>
    by_cases hp : p a
    · have hq : q a = false := hpq a hp
      simp only [List.filter_cons, hp, hq, if_true, Bool.false_eq_true, if_false,
        Bool.not_true, Bool.false_and]
      simpa using List.Perm.cons a ih
    · by_cases hq : q a
      · simp only [List.filter_cons, hp, hq, Bool.false_eq_true, if_false, if_true,
          Bool.not_true, Bool.and_false]
        have h1 : t.filter p ++ (a :: t.filter q) ++
            t.filter (fun x => !(p x) && !(q x)) =
            t.filter p ++ a :: (t.filter q ++ t.filter (fun x => !(p x) && !(q x))) := by
          simp [List.append_assoc]
        rw [h1]
        exact List.Perm.trans List.perm_middle
          (List.Perm.cons a (by simpa [List.append_assoc] using ih))
      · simp only [List.filter_cons, hp, hq, Bool.false_eq_true, if_false,
          Bool.not_false, Bool.and_self, if_true]
        have h1 : t.filter p ++ t.filter q ++
            (a :: t.filter (fun x => !(p x) && !(q x))) =
            (t.filter p ++ t.filter q) ++
              a :: t.filter (fun x => !(p x) && !(q x)) := rfl
        rw [h1]
        exact List.Perm.trans List.perm_middle (List.Perm.cons a ih)

/-- Exclusivity only depends on the job list up to permutation. -/
lemma exclusive_of_perm {jobs1 jobs2 : List Job} {res : Resources}
    (h : List.Perm jobs1 jobs2) (hx : Exclusive jobs1 res) : Exclusive jobs2 res := by
  unfold Exclusive at *
  have hperm : List.Perm ((jobs1.map allocOf).flatten) ((jobs2.map allocOf).flatten) :=
    List.Perm.flatten (List.Perm.map _ h)
  exact (List.Perm.nodup_iff (List.Perm.append_left _ hperm)).mp hx

/-- The full pending phase (ranking plus loop) never duplicates a GPU id
and keeps the node keys of the snapshot. -/
lemma process_pending_jobs_subperm (now : Int) (wfail : Nat → Bool) (rfail : Bool)
    (jobs : List Job) (res : Resources) (hn : NodesNodup res)
    (hall : ∀ j ∈ jobs, j.state = "pending") :
    List.Subperm
      (freeJoin (process_pending_jobs now wfail rfail jobs res).2.1 ++
        (((process_pending_jobs now wfail rfail jobs res).1).map allocOf).flatten)
      (freeJoin res ++ (jobs.map allocOf).flatten) ∧
    ((process_pending_jobs now wfail rfail jobs res).2.1).free_gpu_ids.map (fun p => p.1) =
      res.free_gpu_ids.map (fun p => p.1) := by
  unfold process_pending_jobs
  split
  · have hLp : ∀ j ∈ rank_pending res.gpu_per_user jobs, j.state = "pending" :=
      fun j hj => hall j ((List.Perm.mem_iff (rank_pending_perm _ _)).mp hj)
    constructor
    · have hsub := pending_loop_subperm now wfail rfail _ res hn hLp
      have hLF : List.Perm
          (((rank_pending res.gpu_per_user jobs).map allocOf).flatten)
          ((jobs.map allocOf).flatten) :=
        List.Perm.flatten (List.Perm.map _ (rank_pending_perm _ _))
      exact List.Subperm.trans hsub
        (List.Perm.subperm (List.Perm.append_left _ hLF))
    · exact pending_loop_map_fst now wfail rfail _ res
  · exact ⟨List.Subperm.refl _, rfl⟩

/-- Assembling one tick from its three parts: if the pending phase only
shrank or rearranged the pool, the running phase froze snapshot and
allocations, and the untouched jobs are unchanged, then exclusivity carries
over from the pre-tick state. -/
lemma exclusive_assemble {res res2 : Resources} {P2 R2 O2 P R O : List Job}
    (hsub : List.Subperm (freeJoin res2 ++ (P2.map allocOf).flatten)
      (freeJoin res ++ (P.map allocOf).flatten))
    (hR : R2.map allocOf = R.map allocOf) (hO : O2 = O)
    (hx : Exclusive (P ++ R ++ O) res) : Exclusive (P2 ++ R2 ++ O2) res2 := by
  unfold Exclusive at *
  simp only [List.map_append, List.flatten_append, List.append_assoc, hR, hO] at hx ⊢
  rw [← List.append_assoc (freeJoin res2), ← List.append_assoc (freeJoin res)] at *
  have hsub2 := subperm_append_compat hsub
    (List.Subperm.refl ((R.map allocOf).flatten ++ (O.map allocOf).flatten))
  exact nodup_of_subperm hsub2 hx

/-- C1: every tick of the Scheduler Core preserves GPU-id exclusivity: if
before the tick every GPU id is a member of at most one of the per-node
free sets of the snapshot and the allocated-id sets of the jobs in an
active state (configuring, running or terminated), then after the tick,
allocation of the pending jobs followed by processing of the running jobs,
the same holds, for every injected registry failure pattern and whether or
not the tick aborts early. -/
theorem server_tick_preserves_exclusivity (now : Int) (wfail : Nat → Bool)
    (rfail : Bool) (jobs : List Job) (res : Resources)
    (hn : NodesNodup res) (hx : Exclusive jobs res) :
    Exclusive (server_tick now wfail rfail jobs res).1
      (server_tick now wfail rfail jobs res).2.1 := by
  have hpq : ∀ j : Job, decide (j.state = "pending") = true →
      decide (j.state = "running") = false := by
    intro j h
    rw [decide_eq_true_iff] at h
    simp [h]
  have hpart := filter_three_perm (fun j : Job => decide (j.state = "pending"))
    (fun j : Job => decide (j.state = "running")) hpq jobs
  have hx2 : Exclusive
      (jobs.filter (fun j => decide (j.state = "pending")) ++
        jobs.filter (fun j => decide (j.state = "running")) ++
        jobs.filter (fun j => !(decide (j.state = "pending")) &&
          !(decide (j.state = "running")))) res :=
    exclusive_of_perm (List.Perm.symm hpart) hx
  have hallP : ∀ j ∈ jobs.filter (fun j => decide (j.state = "pending")),
      j.state = "pending" := by
    intro j hj
    exact of_decide_eq_true (List.mem_filter.mp hj).2
  have hallR : ∀ j ∈ jobs.filter (fun j => decide (j.state = "running")),
      j.state = "running" := by
    intro j hj
    exact of_decide_eq_true (List.mem_filter.mp hj).2
  have hpend := process_pending_jobs_subperm now wfail rfail
    (jobs.filter (fun j => decide (j.state = "pending"))) res hn hallP
  simp only [server_tick]
  split
  · rename_i p2 res2 e heq
    rw [heq] at hpend
    exact exclusive_assemble hpend.1 rfl rfl hx2
  · rename_i p2 res2 heq
    rw [heq] at hpend
    have hfro := running_loop_frozen now wfail rfail
      (jobs.filter (fun j => decide (j.state = "running"))) res2 hallR
    refine exclusive_assemble ?_ hfro.2 rfl hx2
    rw [hfro.1]
    exact hpend.1

lemma mem_sinsert {α : Type} {le : α → α → Bool} {x a : α} {l : List α} :
    a ∈ sinsert le x l ↔ a = x ∨ a ∈ l := by
  rw [List.Perm.mem_iff (sinsert_perm le x l)]
  simp

/-- Stable insertion preserves sortedness refined by an arbitrary relation T
on ties: in the output, any element left of another either strictly precedes
it in the comparison or ties with it and was related by T. -/
lemma sinsert_pairwise {α : Type} (le : α → α → Bool) (T : α → α → Prop)
    (htot : ∀ a b, le a b = true ∨ le b a = true)
    (htrans : ∀ a b c, le a b = true → le b c = true → le a c = true)
    (x : α) :
    ∀ l : List α, (∀ b ∈ l, T x b) →
    List.Pairwise (fun a b => le a b = true ∧ (le b a = true → T a b)) l →
    List.Pairwise (fun a b => le a b = true ∧ (le b a = true → T a b))
      (sinsert le x l) := by
  intro l
  induction l with
  | nil =>
    intro _ _
    simp [sinsert]
  | cons b t ih =>
    intro hx hl
    rw [List.pairwise_cons] at hl
    simp only [sinsert]
    by_cases h : le x b = true
    · rw [if_pos h]
      rw [List.pairwise_cons]
      refine ⟨?_, List.pairwise_cons.mpr hl⟩
      intro c hc
      rcases List.mem_cons.mp hc with hcb | hct
      · subst hcb
        exact ⟨h, fun _ => hx c (by simp)⟩
      · have hbc := (hl.1 c hct).1
        exact ⟨htrans x b c h hbc, fun _ => hx c (by simp [hct])⟩
    · rw [if_neg h]
      have hbx : le b x = true := by
        rcases htot x b with h1 | h1
        · exact absurd h1 h
        · exact h1
      rw [List.pairwise_cons]
      constructor
      · intro c hc
        rcases mem_sinsert.mp hc with hcx | hct
        · subst hcx
          exact ⟨hbx, fun hxb => absurd hxb h⟩
        · exact hl.1 c hct
      · exact ih (fun c hc => hx c (by simp [hc])) hl.2

/-- A stable sort of a list that is pairwise related by T yields a list
that is sorted and, on ties of the comparison, still pairwise related by T:
this is exactly stability. -/
lemma ssort_pairwise {α : Type} (le : α → α → Bool) (T : α → α → Prop)
    (htot : ∀ a b, le a b = true ∨ le b a = true)
    (htrans : ∀ a b c, le a b = true → le b c = true → le a c = true) :
    ∀ l : List α, List.Pairwise T l →
    List.Pairwise (fun a b => le a b = true ∧ (le b a = true → T a b))
      (ssort le l) := by
  intro l
  induction l with
  | nil =>
    intro _
    simp [ssort]
  | cons a t ih =>
    intro hp
    rw [List.pairwise_cons] at hp
    simp only [ssort]
    refine sinsert_pairwise le T htot htrans a (ssort le t) ?_ (ih hp.2)
    intro b hb
    exact hp.1 b ((List.Perm.mem_iff (ssort_perm le t)).mp hb)

/-- Witness for C1 at a concrete pre-tick state: a pending job and a
running job over node N1, with pairwise distinct GPU ids, keep exclusivity
through a tick. -/
theorem server_tick_preserves_exclusivity_witness :
    NodesNodup resW ∧ Exclusive [jobP1, jobW2] resW ∧
    Exclusive (server_tick 5000 (fun _ => false) false [jobP1, jobW2] resW).1
      (server_tick 5000 (fun _ => false) false [jobP1, jobW2] resW).2.1 :=
  ⟨by decide, by decide,
    server_tick_preserves_exclusivity 5000 (fun _ => false) false [jobP1, jobW2] resW
      (by decide) (by decide)⟩

/-- C4: process_pending_jobs attempts the pending jobs in the order of the
list rank_pending over which it loops: a permutation of the input that is
sorted by requested GPU count (config gres) descending and, applied only
among equal requests, by the requesting user usage descending; in
particular jobs with (gres 4, usage 2), (gres 4, usage 5), (gres 2,
usage 0) are attempted in the order second, first, third. -/
theorem rank_pending_two_key_order :
    (∀ (m : List (UserId × Nat)) (jobs : List Job),
      List.Perm (rank_pending m jobs) jobs ∧
      List.Pairwise (fun a b => b.config.gres < a.config.gres ∨
        (a.config.gres = b.config.gres ∧ userUsage m b ≤ userUsage m a))
        (rank_pending m jobs)) ∧
    rank_pending usageABC [jobA, jobB, jobC] = [jobB, jobA, jobC] := by
  constructor
  · intro m jobs
    refine ⟨rank_pending_perm m jobs, ?_⟩
    have htriv : List.Pairwise (fun _ _ : Job => True) jobs := by
      induction jobs with
      | nil => exact List.Pairwise.nil
      | cons a t ih => exact List.Pairwise.cons (fun _ _ => trivial) ih
    have h1 := ssort_pairwise (fun a b : Job => decide (userUsage m b ≤ userUsage m a))
      (fun _ _ => True)
      (fun a b => by
        rcases Nat.le_total (userUsage m b) (userUsage m a) with h | h
        · exact Or.inl (decide_eq_true h)
        · exact Or.inr (decide_eq_true h))
      (fun a b c hab hbc =>
        decide_eq_true (le_trans (of_decide_eq_true hbc) (of_decide_eq_true hab)))
      jobs htriv
    have h2 : List.Pairwise (fun a b : Job => userUsage m b ≤ userUsage m a)
        (ssort (fun a b : Job => decide (userUsage m b ≤ userUsage m a)) jobs) :=
      List.Pairwise.imp (fun h => of_decide_eq_true h.1) h1
    have h3 := ssort_pairwise (fun a b : Job => decide (b.config.gres ≤ a.config.gres))
      (fun a b : Job => userUsage m b ≤ userUsage m a)
      (fun a b => by
        rcases Nat.le_total (b.config.gres) (a.config.gres) with h | h
        · exact Or.inl (decide_eq_true h)
        · exact Or.inr (decide_eq_true h))
      (fun a b c hab hbc =>
        decide_eq_true (le_trans (of_decide_eq_true hbc) (of_decide_eq_true hab)))
      _ h2
    refine List.Pairwise.imp ?_ h3
    intro a b hab
    have hba := of_decide_eq_true hab.1
    by_cases he : a.config.gres = b.config.gres
    · exact Or.inr ⟨he, hab.2 (decide_eq_true (le_of_eq he))⟩
    · exact Or.inl (lt_of_le_of_ne hba (fun hh => he hh.symm))
  · decide

/-- C9: a pending job whose requested count exceeds the free count of every
node is left exactly as it was: the allocation step changes neither the job
record nor the snapshot and raises no error. -/
theorem unsatisfiable_request_stays_pending (now : Int) (wfail : Nat → Bool)
    (rfail : Bool) (job : Job) (res : Resources)
    (h : ∀ p ∈ res.free_gpu_ids, p.2.length < job.config.gres) :
    process_pending_job now wfail rfail job res = ((job, res), none) := by
  have hf : res.free_gpu_ids.find?
      (fun p => decide (job.config.gres ≤ p.2.length)) = none := by
    rw [List.find?_eq_none]
    intro p hp
    simp only [decide_eq_true_iff]
    exact Nat.not_le.mpr (h p hp)
  unfold process_pending_job
  rw [hf]

/-- Witness for C9: a job requesting 3 GPUs over a snapshot whose only node
has 2 free ids stays pending with no writes and no error. -/
theorem unsatisfiable_request_stays_pending_witness :
    (∀ p ∈ resN1.free_gpu_ids, p.2.length < jobBig.config.gres) ∧
    process_pending_job 0 (fun _ => false) false jobBig resN1 =
      ((jobBig, resN1), none) :=
  ⟨by decide,
    unsatisfiable_request_stays_pending 0 (fun _ => false) false jobBig resN1
      (by decide)⟩

/-- C10: when the allocation step succeeds on node n, the written snapshot
differs from the read one only at node n (every other entry of the free
dict is carried over unchanged and the per-user map is untouched), and the
job record changes only in allocated_node, allocated_gpu_ids, start_time
and state, keeping user, gres, time_limit and script reference. -/
theorem allocation_frame (now : Int) (wfail : Nat → Bool) (rfail : Bool)
    (job : Job) (res : Resources) (n : NodeId) (l : List GpuId) (g : Nat)
    (hf : res.free_gpu_ids.find?
      (fun p => decide (job.config.gres ≤ p.2.length)) = some (n, l))
    (hg : job.config.gpus = some g)
    (hw : wfail job.jid = false) (hr : rfail = false) :
    (process_pending_job now wfail rfail job res).2 = none ∧
    ((process_pending_job now wfail rfail job res).1.2).free_gpu_ids =
      dset res.free_gpu_ids n (l.drop g) ∧
    (∀ p ∈ ((process_pending_job now wfail rfail job res).1.2).free_gpu_ids,
      p.1 ≠ n → p ∈ res.free_gpu_ids) ∧
    ((process_pending_job now wfail rfail job res).1.2).gpu_per_user =
      res.gpu_per_user ∧
    (process_pending_job now wfail rfail job res).1.1.config.user = job.config.user ∧
    (process_pending_job now wfail rfail job res).1.1.config.gres = job.config.gres ∧
    (process_pending_job now wfail rfail job res).1.1.config.time_limit =
      job.config.time_limit ∧
    (process_pending_job now wfail rfail job res).1.1.config.script_path =
      job.config.script_path ∧
    (process_pending_job now wfail rfail job res).1.1.config.allocated_node = some n ∧
    (process_pending_job now wfail rfail job res).1.1.config.allocated_gpu_ids =
      some (l.take g) ∧
    (process_pending_job now wfail rfail job res).1.1.config.start_time = some now ∧
    (process_pending_job now wfail rfail job res).1.1.state = "configuring" := by
  subst hr
  unfold process_pending_job
  rw [hf, hg, hw]
  exact ⟨rfl, rfl, fun p hp hne => mem_dset_of_ne hp hne,
    rfl, rfl, rfl, rfl, rfl, rfl, rfl, rfl, rfl⟩

/-- Witness for C10 at the spec allocation scenario: node N1 with free ids 0
and 1 and a job whose gres and gpus keys both hold 2. -/
theorem allocation_frame_witness :
    resN1.free_gpu_ids.find?
      (fun p => decide (jobPendG.config.gres ≤ p.2.length)) = some ("N1", [0, 1]) ∧
    jobPendG.config.gpus = some 2 ∧
    ((process_pending_job 100 (fun _ => false) false jobPendG resN1).2 = none ∧
      ((process_pending_job 100 (fun _ => false) false jobPendG resN1).1.2).free_gpu_ids =
        dset resN1.free_gpu_ids "N1" (List.drop 2 [0, 1]) ∧
      (∀ p ∈ ((process_pending_job 100 (fun _ => false) false jobPendG resN1).1.2).free_gpu_ids,
        p.1 ≠ "N1" → p ∈ resN1.free_gpu_ids) ∧
      ((process_pending_job 100 (fun _ => false) false jobPendG resN1).1.2).gpu_per_user =
        resN1.gpu_per_user ∧
      (process_pending_job 100 (fun _ => false) false jobPendG resN1).1.1.config.user =
        jobPendG.config.user ∧
      (process_pending_job 100 (fun _ => false) false jobPendG resN1).1.1.config.gres =
        jobPendG.config.gres ∧
      (process_pending_job 100 (fun _ => false) false jobPendG resN1).1.1.config.time_limit =
        jobPendG.config.time_limit ∧
      (process_pending_job 100 (fun _ => false) false jobPendG resN1).1.1.config.script_path =
        jobPendG.config.script_path ∧
      (process_pending_job 100 (fun _ => false) false jobPendG resN1).1.1.config.allocated_node =
        some "N1" ∧
      (process_pending_job 100 (fun _ => false) false jobPendG resN1).1.1.config.allocated_gpu_ids =
        some (List.take 2 [0, 1]) ∧
      (process_pending_job 100 (fun _ => false) false jobPendG resN1).1.1.config.start_time =
        some 100 ∧
      (process_pending_job 100 (fun _ => false) false jobPendG resN1).1.1.state =
        "configuring") :=
  ⟨by decide, by decide,
    allocation_frame 100 (fun _ => false) false jobPendG resN1 "N1" [0, 1] 2
      (by decide) (by decide) rfl rfl⟩

/-- C2 fails on the code: the capacity check uses the config key gres while
the slice and the free-list update use the distinct key gpus. On the record
the client actually creates, which has no gpus key, the step aborts with a
KeyError instead of allocating; and when a gpus key holding 1 is present
next to gres 2, the step allocates a single id where the claim requires the
first two. -/
theorem allocation_key_mismatch :
    process_pending_job 100 (fun _ => false) false jobPend resN1 =
      ((jobPend, resN1), some (SrvErr.keyError "gpus")) ∧
    jobPend.config.gres = 2 ∧
    (∃ p ∈ resN1.free_gpu_ids, jobPend.config.gres ≤ p.2.length) ∧
    (process_pending_job 100 (fun _ => false) false jobPendOne resN1).1.1.config.allocated_gpu_ids =
      some [0] ∧
    jobPendOne.config.gres = 2 := by
  decide

/-- C3 fails on the code: the main block only selects runs in state
running, so a job already in state finished is never handed to
process_running_job; a tick over finished jobs is the identity and their
allocated GPUs are never added back to the free lists. -/
theorem finished_jobs_never_reclaimed (now : Int) (wfail : Nat → Bool)
    (rfail : Bool) (jobs : List Job) (res : Resources)
    (h : ∀ j ∈ jobs, j.state = "finished") :
    server_tick now wfail rfail jobs res = (jobs, res, none) := by
  have hp : jobs.filter (fun j => decide (j.state = "pending")) = [] := by
    rw [List.filter_eq_nil_iff]
    intro j hj
    simp [h j hj]
  have hr2 : jobs.filter (fun j => decide (j.state = "running")) = [] := by
    rw [List.filter_eq_nil_iff]
    intro j hj
    simp [h j hj]
  have ho : jobs.filter (fun j => !(decide (j.state = "pending")) &&
      !(decide (j.state = "running"))) = jobs := by
    rw [List.filter_eq_self]
    intro j hj
    simp [h j hj]
  simp [server_tick, hp, hr2, ho, process_pending_jobs, pending_loop,
    rank_pending, ssort, running_loop]

/-- Witness for C3: a tick over a snapshot with free ids 0 and 1 and a
finished job still holding ids 5 and 6 returns everything unchanged; the
held ids are never reclaimed. -/
theorem finished_jobs_never_reclaimed_witness :
    (∀ j ∈ [jobFin], j.state = "finished") ∧
    server_tick 99999 (fun _ => false) false [jobFin] resN1 =
      ([jobFin], resN1, none) :=
  ⟨by decide,
    finished_jobs_never_reclaimed 99999 (fun _ => false) false [jobFin] resN1
      (by decide)⟩

/-- C5 fails on the code: the client documents and stores the time limit as
a number of hours, while the check compares that raw number with the
elapsed seconds. A running job submitted with a 1 hour limit and only 1800
elapsed seconds, half its requested duration, is already transitioned to
terminated (and, as the claim says, no GPU is reclaimed at this step). -/
theorem time_limit_unit_mismatch :
    (process_running_job 1800 (fun _ => false) false jobRun resN1).1.1.state =
      "terminated" ∧
    (process_running_job 1800 (fun _ => false) false jobRun resN1).1.2 = resN1 ∧
    (process_running_job 1800 (fun _ => false) false jobRun resN1).2 = none ∧
    jobRun.config.time_limit = 1 ∧
    jobRun.config.start_time = some 0 ∧
    (1800 : Int) - 0 ≤ 1 * 3600 := by
  decide

/-- C6 fails on the code: the scheduler stores the allocation under the
config key allocated_gpu_ids, but the launch command reads the distinct key
allocated_gpus, still holding None from submission, so the remote command
sets CUDA_VISIBLE_DEVICES to the string None rather than to the allocated
ids 0 and 1. -/
theorem launch_env_field_mismatch :
    (process_pending_job 100 (fun _ => false) false jobPendG resN1).1.1.config.allocated_gpu_ids =
      some [0, 1] ∧
    client_launch_cmd
      (process_pending_job 100 (fun _ => false) false jobPendG resN1).1.1.config =
      ["ssh", "N1", "CUDA_VISIBLE_DEVICES=None", "bash", "train.sh"] := by
  decide

/-- Counterexample to C7: two pending one-GPU jobs over a node with four
free GPUs; the registry write for the first job fails. The claim requires
the second job to still be processed, but the tick aborts: the error
propagates, the second job is left pending and unallocated even though a
node with enough free GPUs remains. -/
theorem per_job_error_aborts_tick_cex :
    (process_pending_jobs 0 (fun i => decide (i = 1)) false [jobP1, jobP2] resP).2.2 =
      some SrvErr.registry ∧
    (process_pending_jobs 0 (fun i => decide (i = 1)) false [jobP1, jobP2] resP).1 =
      [jobP1, jobP2] ∧
    jobP2.state = "pending" ∧
    (∃ p ∈ (process_pending_jobs 0 (fun i => decide (i = 1)) false
        [jobP1, jobP2] resP).2.1.free_gpu_ids,
      jobP2.config.gres ≤ p.2.length) := by
  decide

/-- C7 amended: an error while processing one job aborts the remainder of
the tick (the loop has no per-job exception handling), leaving every later
job record exactly as it was, to be retried next period; and a total
registry outage, a failure of the initial reads, ends the tick before any
write, a no-op retried next period. -/
theorem per_job_error_aborts_rest (now : Int) (wfail : Nat → Bool) (rfail : Bool)
    (j : Job) (rest : List Job) (res : Resources) (e : SrvErr)
    (h : (process_pending_job now wfail rfail j res).2 = some e) :
    pending_loop now wfail rfail (j :: rest) res =
      ((process_pending_job now wfail rfail j res).1.1 :: rest,
        (process_pending_job now wfail rfail j res).1.2, some e) ∧
    server_main true now wfail rfail (j :: rest) res =
      (j :: rest, res, some SrvErr.registry) := by
  refine ⟨?_, rfl⟩
  unfold pending_loop
  rcases hs : process_pending_job now wfail rfail j res with ⟨⟨j2, res2⟩, e2⟩
  rw [hs] at h
  have he : e2 = some e := h
  subst he
  simp [hs]

/-- Witness for C7 amended: the first job of the counterexample aborts the
loop and the second stays untouched; the outage case is a no-op. -/
theorem per_job_error_aborts_rest_witness :
    (process_pending_job 0 (fun i => decide (i = 1)) false jobP1 resP).2 =
      some SrvErr.registry ∧
    (pending_loop 0 (fun i => decide (i = 1)) false [jobP1, jobP2] resP =
      ((process_pending_job 0 (fun i => decide (i = 1)) false jobP1 resP).1.1 :: [jobP2],
        (process_pending_job 0 (fun i => decide (i = 1)) false jobP1 resP).1.2,
        some SrvErr.registry) ∧
    server_main true 0 (fun i => decide (i = 1)) false [jobP1, jobP2] resP =
      ([jobP1, jobP2], resP, some SrvErr.registry)) :=
  ⟨by decide,
    per_job_error_aborts_rest 0 (fun i => decide (i = 1)) false jobP1 [jobP2] resP
      SrvErr.registry (by decide)⟩

/-- C8: whenever the supervise loop observes the record in state terminated
(with at least one poll left), it emits a graceful terminate, sleeps the 30
second grace period, force-kills exactly when the process is still alive
after it, and finally writes the record as finished. -/
theorem client_supervise_terminated (stateAt : Nat → String) (aliveAt : Nat → Bool)
    (fuel t : Nat) (h : stateAt t = "terminated") :
    client_supervise stateAt aliveAt (fuel + 1) t =
      (ClientAct.terminate :: ClientAct.sleep 30 ::
        ((if aliveAt (t + 30) then [ClientAct.kill] else []) ++
          [ClientAct.writeState "finished"]),
       some "finished") := by
  unfold client_supervise supervise_loop
  rw [if_pos h]
  simp

/-- Witness for C8: observing terminated with the process still alive after
the grace period yields terminate, the 30 second wait, the kill and the
finished write. -/
theorem client_supervise_terminated_witness :
    (fun _ : Nat => "terminated") 0 = "terminated" ∧
    client_supervise (fun _ => "terminated") (fun _ => true) 1 0 =
      ([ClientAct.terminate, ClientAct.sleep 30, ClientAct.kill,
        ClientAct.writeState "finished"], some "finished") :=
  ⟨rfl, client_supervise_terminated (fun _ => "terminated") (fun _ => true) 0 0 rfl⟩

end Slite
